import Mathlib

/-!
Verification development for the `atlas-ctl-utils` local runner
(`src/runners/local.py`).

The Python source is shallowly embedded:
* `validate_uuid7` together with a model of CPython's `uuid.UUID` string
  parsing and `UUID.version`;
* `get_stages_from_workflow` / `_build_active_stages` over an explicit
  model of the loaded YAML documents;
* `merge_config_dirs` as a pure transform on virtual file trees
  (association lists relative-path → content);
* the body of `main` as a function `run` from an explicit `World`
  (the filesystem / subprocess environment the script observes) to a
  `RunResult` recording the terminal outcome, the stages invoked, and
  the transient directories created and removed.
-/

namespace AtlasCtl

/-! ## Identifier validation (`validate_uuid7`, local.py lines 18-26)

Models CPython's `uuid.UUID(v)` string constructor: it removes every
occurrence of the substrings `urn:` and `uuid:`, strips leading and
trailing `{`/`}` characters, removes every `-`, requires exactly 32
hexadecimal digits, and interprets them as a 128-bit integer.
`UUID.version` is the nibble at bits 76..79, defined (`Some`) only when
the variant bits say RFC 4122 (bit 63 set, bit 62 clear); otherwise
Python's `version` is `None`. -/

/-- Drops `pat` from the front of `s`, or `none` when `s` does not start
with `pat`. -/
def stripPat : List Char → List Char → Option (List Char)
  | [], s => some s
  | _ :: _, [] => none
  | p :: ps, c :: cs => if p = c then stripPat ps cs else none

/-- Fuel-driven worker for `removeAll`; the fuel bounds the number of
characters emitted, so `s.length` fuel always suffices. -/
def removeAllFuel (pat : List Char) : Nat → List Char → List Char
  | 0, s => s
  | _ + 1, [] => []
  | fuel + 1, c :: cs =>
    match stripPat pat (c :: cs) with
    | some rest => removeAllFuel pat fuel rest
    | none => c :: removeAllFuel pat fuel cs

/-- Python `s.replace(pat, "")`: removes every occurrence of `pat`,
scanning left to right. -/
def removeAll (pat s : List Char) : List Char :=
  removeAllFuel pat s.length s

/-- Python `s.strip("{}")`: removes leading and trailing characters drawn
from the set. -/
def stripSet (set s : List Char) : List Char :=
  ((s.dropWhile (· ∈ set)).reverse.dropWhile (· ∈ set)).reverse

/-- Value of one hexadecimal digit, `none` for a non-hex character. -/
def hexDigit? (c : Char) : Option Nat :=
  if '0' ≤ c ∧ c ≤ '9' then some (c.toNat - '0'.toNat)
  else if 'a' ≤ c ∧ c ≤ 'f' then some (c.toNat - 'a'.toNat + 10)
  else if 'A' ≤ c ∧ c ≤ 'F' then some (c.toNat - 'A'.toNat + 10)
  else none

/-- Big-endian hexadecimal string to `Nat`; `none` when any character is
not a hex digit. -/
def hexNat? (cs : List Char) : Option Nat :=
  cs.foldl (fun acc c => acc.bind fun n => (hexDigit? c).map fun d => n * 16 + d)
    (some 0)

/-- CPython `uuid.UUID(v).int`: the 128-bit value, or `none` when the
string is not a structurally valid UUID. -/
def uuidParse (v : String) : Option Nat :=
  let s1 := removeAll "urn:".data v.data
  let s2 := removeAll "uuid:".data s1
  let s3 := stripSet ['{', '}'] s2
  let s4 := s3.filter (· ≠ '-')
  if s4.length = 32 then hexNat? s4 else none

/-- CPython `uuid.UUID.version`: the version nibble when the variant is
RFC 4122, otherwise `none` (Python `None`). -/
def uuidVersion (n : Nat) : Option Nat :=
  if n.testBit 63 = true ∧ n.testBit 62 = false then some ((n >>> 76) % 16)
  else none

/-- Model of `validate_uuid7` (local.py lines 18-26): parse the token with
`uuid.UUID`; a parse failure is rejected as `Invalid UUID format`, a
parsed UUID whose version is not 7 is rejected with a message naming the
required version (7) and the actual one. -/
def validate_uuid7 (v : String) : Except String String :=
  match uuidParse v with
  | none => .error ("Invalid UUID format: " ++ v)
  | some n =>
    match uuidVersion n with
    | some ver =>
      if ver = 7 then .ok v
      else .error ("UUID must be version 7, got version " ++ toString ver ++ ": " ++ v)
    | none => .error ("UUID must be version 7, got version None: " ++ v)

/-! ## YAML documents and the inventory/workflow resolver
(`get_stages_from_workflow`, `_build_active_stages`, local.py 46-93) -/

/-- The shape of the inventory's `stages` field that the script
distinguishes: a YAML sequence of stage ids, or anything else (the
`isinstance(..., list)` check fails on the latter). -/
inductive YVal where
  | list : List String → YVal
  | scalar : String → YVal
deriving DecidableEq

/-- Loaded inventory document: the optional `stages` field and the
`env_vars` mapping (defaulting to `{}` when absent). -/
structure Inventory where
  stagesField : Option YVal
  env_vars : List (String × String)
deriving DecidableEq

/-- Loaded workflow document: its optional `stages` field (a sequence of
stage ids when present). -/
structure Workflow where
  stagesField : Option (List String)
deriving DecidableEq

/-- Loaded per-stage `stage.yaml` metadata. -/
structure StageMeta where
  cfg_keys : List String
  env_vars : List (String × String)
deriving DecidableEq

/-- The stage descriptor built by `_build_active_stages`: the inventory-
and stage-level env var defaults are carried in separate namespaces. -/
structure ActiveStage where
  id : String
  cfg_keys : List String
  env_vars_inventory : List (String × String)
  env_vars_stage : List (String × String)
deriving DecidableEq

/-- The `RuntimeError`s the resolver can raise, one constructor per
`raise` site in `get_stages_from_workflow` / `_build_active_stages`. -/
inductive ResolveError where
  | invalidInventory
  | unknownStage (sid : String)
  | invalidWorkflow
  | stageNotListed (sid : String)
  | missingStageMetadata (sid : String)
deriving DecidableEq

/-- Python `inventory.get("stages", [])` as used by `_build_active_stages`: an
absent field defaults to the empty list. (The scalar case is mapped to
`[]` here; `_build_active_stages` is only ever reached after
`get_stages_from_workflow` has already rejected a non-list field.) -/
def invStagesDefault (inv : Inventory) : List String :=
  match inv.stagesField with
  | some (.list l) => l
  | _ => []

/-- The membership loop of `get_stages_from_workflow` (lines 82-86):
walk the workflow's stage ids in declared order, failing on the first id
not present in the inventory's stage list. -/
def checkActiveIds (ids : List String) : List String → Except ResolveError (List String)
  | [] => .ok []
  | sid :: rest =>
    if sid ∈ ids then (checkActiveIds ids rest).map (sid :: ·)
    else .error (.unknownStage sid)

/-- Model of `_build_active_stages` (lines 46-70): for each active id, re-check
inventory membership, load the stage metadata (failing when the file is
missing), and build the descriptor carrying the inventory-level and
stage-level env var defaults separately. -/
def buildActiveStages (inv : Inventory) (meta : String → Option StageMeta) :
    List String → Except ResolveError (List ActiveStage)
  | [] => .ok []
  | sid :: rest =>
    if sid ∈ invStagesDefault inv then
      match meta sid with
      | none => .error (.missingStageMetadata sid)
      | some st =>
        (buildActiveStages inv meta rest).map
          ({ id := sid, cfg_keys := st.cfg_keys,
             env_vars_inventory := inv.env_vars,
             env_vars_stage := st.env_vars } :: ·)
    else .error (.stageNotListed sid)

/-- The inventory-side validation of lines 77-79: `inventory.get("stages", [])`
followed by the `isinstance(..., list)` check — an absent field defaults
to the empty list (which is a list and passes), a present non-list field
raises. -/
def inventoryStageIds (inv : Inventory) : Except ResolveError (List String) :=
  match inv.stagesField with
  | none => .ok []
  | some (.list l) => .ok l
  | some (.scalar _) => .error .invalidInventory

/-- The workflow-side check of lines 81-90: the document must have a
`stages` field. -/
def workflowStageIds (wf : Workflow) : Except ResolveError (List String) :=
  match wf.stagesField with
  | some l => .ok l
  | none => .error .invalidWorkflow

/-- Model of `get_stages_from_workflow` (lines 73-93): validate that the
inventory's `stages` field is a list (absent defaults to `[]`), require
the workflow to have a `stages` field, check every workflow stage id
against the inventory, then build the active stage descriptors. -/
def get_stages_from_workflow (inv : Inventory) (wf : Workflow)
    (meta : String → Option StageMeta) :
    Except ResolveError (List String × List ActiveStage) :=
  match inventoryStageIds inv with
  | .error e => .error e
  | .ok ids =>
    match workflowStageIds wf with
    | .error e => .error e
    | .ok wfStages =>
      match checkActiveIds ids wfStages with
      | .error e => .error e
      | .ok activeIds =>
        match buildActiveStages inv meta activeIds with
        | .error e => .error e
        | .ok active => .ok (activeIds, active)

/-! ## Configuration merge engine (`merge_config_dirs`, local.py 96-126)

A source directory is a virtual file tree: an association list from
relative path to file content (a real directory has one file per path,
hence the `Nodup` hypotheses in the theorems). The destination starts
empty (the Python removes a pre-existing destination first). For each
source in priority order and each of its files: if the destination does
not yet hold the path, the file is copied; otherwise a newline plus the
new content is appended to the existing destination file. -/

/-- A directory snapshot: relative path paired with file content. -/
abbrev FileTree := List (String × String)

/-- Content of the file at relative path `p`, if present. -/
def lookupFile : FileTree → String → Option String
  | [], _ => none
  | pc :: t, p => if pc.1 = p then some pc.2 else lookupFile t p

/-- Overwrite the content stored at path `p`. -/
def updateFile (t : FileTree) (p c : String) : FileTree :=
  t.map (fun pc => if pc.1 = p then (p, c) else pc)

/-- One file of one source arriving at the destination: append
`"\n" ++ c` when the path already exists (the `open(dest, 'a')` branch),
copy otherwise. -/
def mergeOneFile (dest : FileTree) (p c : String) : FileTree :=
  match lookupFile dest p with
  | some old => updateFile dest p (old ++ "\n" ++ c)
  | none => dest ++ [(p, c)]

/-- Walk one source directory into the destination. -/
def mergeSourceDir (dest : FileTree) (src : FileTree) : FileTree :=
  src.foldl (fun d pc => mergeOneFile d pc.1 pc.2) dest

/-- Model of `merge_config_dirs` (lines 96-126) as a pure transform: fold the
sources in priority order into an initially empty destination. -/
def merge_config_dirs (sources : List FileTree) : FileTree :=
  sources.foldl mergeSourceDir []

/-- Combination of an already-merged destination content with one
source's contribution at the same path: absent contributions change
nothing, a contribution to an existing file is appended after a
newline. -/
def combineOpt : Option String → Option String → Option String
  | some a, some c => some (a ++ "\n" ++ c)
  | some a, none => some a
  | none, c => c

/-- Concatenation with a single `"\n"` between contributions, threaded
through an accumulator: `joinFrom acc l` appends each element of `l` to
`acc` in order, starting a fresh accumulator on the first element when
`acc` is `none`. -/
def joinFrom : Option String → List String → Option String
  | acc, [] => acc
  | none, c :: rest => joinFrom (some c) rest
  | some a, c :: rest => joinFrom (some (a ++ "\n" ++ c)) rest

/-! ## Stage execution and the body of `main` (local.py 129-261) -/

/-- The stage-execution loop (lines 236-253): invoke each stage's entry
point in order; `exitOk sid = false` models the entry point exiting
non-zero or failing to launch (both raise and abort the loop). Returns
the ids invoked, in order, and the failing stage if any. -/
def execStages (exitOk : String → Bool) : List ActiveStage → List String × Option String
  | [] => ([], none)
  | st :: rest =>
    if exitOk st.id then
      let r := execStages exitOk rest
      (st.id :: r.1, r.2)
    else ([st.id], some st.id)

/-- Terminal outcome of one invocation of `main`, one constructor per
exit path of the script. -/
inductive Outcome where
  | invalidRunId
  | configError
  | inventoryNotFound
  | workflowNotFound
  | nullWorkflow
  | resolveError (e : ResolveError)
  | symlinkResolveFailed
  | stageFailed (sid : String)
  | success
deriving DecidableEq

/-- Observable result of one run: terminal outcome, stage entry points
invoked (in order), and the transient directories created and removed
(in order). `"merge_scratch"` names the `tempfile.mkdtemp()` directory,
`"effective_cfg"` the symlink-resolved directory. -/
structure RunResult where
  outcome : Outcome
  invoked : List String
  created : List String
  removed : List String
deriving DecidableEq

/-- Transient directories still on disk when the process returns. -/
def remainingDirs (r : RunResult) : List String :=
  r.created.filter (fun d => d ∉ r.removed)

/-- Everything the script observes about its surroundings: parsed CLI
arguments, which input files exist and their loaded contents, whether
the `cp -aL` symlink-resolution subprocess succeeds, and each stage
entry point's exit status. -/
structure World where
  runIdToken : String
  mainTag : String
  inventoryName : String
  envType : String
  workflowName : String
  originCfg : String
  ephemeral : Bool
  skipCfgMerge : Bool
  inventoryFileExists : Bool
  inventory : Inventory
  envWorkflowExists : Bool
  envWorkflow : Workflow
  baseWorkflowExists : Bool
  baseWorkflow : Workflow
  stageMeta : String → Option StageMeta
  cpSucceeds : Bool
  stageExitOk : String → Bool
  baseEnv : String → Option String

/-- Which workflow file the fallback lookup (lines 173-187) settles on. -/
inductive WfChoice where
  | envSpecific
  | base
  | noneFound
deriving DecidableEq

/-- The two-candidate workflow lookup: the environment-type-specific
path is tried first, then the shared base path. -/
def workflowChoice (w : World) : WfChoice :=
  if w.envWorkflowExists then .envSpecific
  else if w.baseWorkflowExists then .base
  else .noneFound

/-- The workflow document actually loaded, per `workflowChoice`. -/
def chosenWorkflowDoc (w : World) : Option Workflow :=
  match workflowChoice w with
  | .envSpecific => some w.envWorkflow
  | .base => some w.baseWorkflow
  | .noneFound => none

/-- The body of `main` (lines 129-261) as a function on `World`,
recording outcome, invoked stages, and transient-directory effects:
1. argparse validates `--run-id` via `validate_uuid7` (exit before any
   side effect on failure);
2. the `env_type == "prod" and ephemeral` check (lines 156-159);
3. inventory file existence (lines 168-171);
4. the empty workflow name leaves `workflow_file = None` (the later
   `open(None)` raises before any filesystem mutation);
5. workflow lookup with base fallback (lines 173-187);
6. `get_stages_from_workflow` (line 190) — a `RuntimeError` here
   propagates before any directory is created;
7. when merging is enabled, `tempfile.mkdtemp()` creates the merge
   scratch directory; then `effective_cfg` is created and `cp -aL` runs
   (`check=True`: a failure raises before the `try`, so nothing is
   removed);
8. the stage loop runs inside `try/finally`; the `finally` removes only
   `effective_cfg` — the merge scratch directory is never removed. -/
def run (w : World) : RunResult :=
  if ¬ (validate_uuid7 w.runIdToken).isOk then ⟨.invalidRunId, [], [], []⟩
  else if w.envType = "prod" ∧ w.ephemeral = true then ⟨.configError, [], [], []⟩
  else if ¬ w.inventoryFileExists then ⟨.inventoryNotFound, [], [], []⟩
  else if w.workflowName = "" then ⟨.nullWorkflow, [], [], []⟩
  else
    match chosenWorkflowDoc w with
    | none => ⟨.workflowNotFound, [], [], []⟩
    | some wf =>
      match get_stages_from_workflow w.inventory wf w.stageMeta with
      | .error e => ⟨.resolveError e, [], [], []⟩
      | .ok (_, active) =>
        let created :=
          if w.skipCfgMerge then ["effective_cfg"]
          else ["merge_scratch", "effective_cfg"]
        if ¬ w.cpSucceeds then ⟨.symlinkResolveFailed, [], created, []⟩
        else
          match execStages w.stageExitOk active with
          | (inv, some sid) => ⟨.stageFailed sid, inv, created, ["effective_cfg"]⟩
          | (inv, none) => ⟨.success, inv, created, ["effective_cfg"]⟩

/-! ## Stage environment construction (local.py 242-247) -/

/-- The five keys the stage loop adds to the inherited environment. -/
def stageEnvKeys : List String :=
  ["main_tag", "env_type", "run_id", "cfg_keys", "origin_cfg_base_dir_path"]

/-- Python `json.dumps` of a list of plain strings (config key names contain no
characters needing escapes). -/
def jsonList (l : List String) : String :=
  "[" ++ String.intercalate ", " (l.map (fun s => "\"" ++ s ++ "\"")) ++ "]"

/-- The environment dict handed to a stage entry point:
`os.environ.copy()` plus the five fixed assignments of lines 242-247. -/
def buildStageEnv (base : String → Option String)
    (mainTag envType runId effDir : String) (st : ActiveStage) :
    String → Option String :=
  fun k =>
    if k = "main_tag" then some mainTag
    else if k = "env_type" then some envType
    else if k = "run_id" then some runId
    else if k = "cfg_keys" then some (jsonList st.cfg_keys)
    else if k = "origin_cfg_base_dir_path" then some effDir
    else base k

/-- The environment a given run passes to a given stage descriptor
(`effective_cfg` is the fixed effective configuration directory). -/
def stageInvocationEnv (w : World) (st : ActiveStage) : String → Option String :=
  buildStageEnv w.baseEnv w.mainTag w.envType w.runIdToken "effective_cfg" st

/-! ## Concrete inputs used to exercise the theorems -/

/-- A fully healthy invocation: valid UUIDv7 run id, `dev` environment,
merge enabled, one stage `build` whose entry point succeeds. -/
def wRunOk : World where
  runIdToken := "017f22e2-79b0-7cc3-98c4-dc0c0c07398f"
  mainTag := "v1"
  inventoryName := "inv"
  envType := "dev"
  workflowName := "wf"
  originCfg := "cfg"
  ephemeral := false
  skipCfgMerge := false
  inventoryFileExists := true
  inventory := ⟨some (.list ["build"]), []⟩
  envWorkflowExists := true
  envWorkflow := ⟨some ["build"]⟩
  baseWorkflowExists := false
  baseWorkflow := ⟨none⟩
  stageMeta := fun s => if s = "build" then some ⟨[], []⟩ else none
  cpSucceeds := true
  stageExitOk := fun _ => true
  baseEnv := fun _ => none

/-- Same run but the `cp -aL` symlink-resolution subprocess fails. -/
def wCpFail : World := { wRunOk with cpSucceeds := false }

/-- Run whose workflow names the stage `b` while the inventory only
declares `a`. -/
def wUnknownStage : World :=
  { wRunOk with inventory := ⟨some (.list ["a"]), []⟩, envWorkflow := ⟨some ["b"]⟩ }

/-- Run invoked with a malformed `--run-id` token. -/
def wBadRunId : World := { wRunOk with runIdToken := "not-a-uuid" }

/-- Run for which neither the environment-specific nor the base workflow
file exists. -/
def wNoWorkflowFile : World :=
  { wRunOk with envWorkflowExists := false, baseWorkflowExists := false }

/-- Run invoked with `--env-type prod --ephemeral true`. -/
def wProdEphemeral : World := { wRunOk with envType := "prod", ephemeral := true }

/-- Inventory declaring `[build, test, deploy]` for the workflow-order
scenario. -/
def invScenario : Inventory := ⟨some (.list ["build", "test", "deploy"]), []⟩

/-- Workflow declaring `[test, deploy]` for the workflow-order
scenario. -/
def wfScenario : Workflow := ⟨some ["test", "deploy"]⟩

/-- Stage metadata present for every stage id in the scenarios. -/
def metaScenario : String → Option StageMeta := fun _ => some ⟨[], []⟩

/-- Three stage descriptors whose middle entry point fails. -/
def stagesScenario : List ActiveStage :=
  [⟨"s1", [], [], []⟩, ⟨"s2", [], [], []⟩, ⟨"s3", [], [], []⟩]

/-- Exit statuses for `stagesScenario`: only `s2` exits non-zero. -/
def exitScenario : String → Bool := fun s => !(s == "s2")

/-- A stage descriptor carrying nonempty cfg keys and env var defaults. -/
def stScenario : ActiveStage := ⟨"build", ["k1", "k2"], [("IK", "IV")], [("SK", "SV")]⟩

/-! ## Helper lemmas: the merge engine -/

theorem lookupFile_append_self (t : FileTree) (p c : String)
    (h : lookupFile t p = none) : lookupFile (t ++ [(p, c)]) p = some c := by
  induction t with
  | nil => simp [lookupFile]
  | cons x t ih =>
    rw [lookupFile] at h
    by_cases hx : x.1 = p
    · simp [hx] at h
    · rw [if_neg hx] at h
      simpa [lookupFile, hx] using ih h

theorem lookupFile_append_other (t : FileTree) (p c q : String) (h : ¬ p = q) :
    lookupFile (t ++ [(p, c)]) q = lookupFile t q := by
  induction t with
  | nil => simp [lookupFile, h]
  | cons x t ih =>
    by_cases hx : x.1 = q <;> simp [lookupFile, hx, ih]

theorem lookupFile_updateFile_self (t : FileTree) (p c : String)
    (h : (lookupFile t p).isSome) : lookupFile (updateFile t p c) p = some c := by
  induction t with
  | nil => simp [lookupFile] at h
  | cons x t ih =>
    by_cases hx : x.1 = p
    · simp [updateFile, lookupFile, hx]
    · rw [lookupFile, if_neg hx] at h
      simpa [updateFile, lookupFile, hx] using ih h

theorem lookupFile_updateFile_other (t : FileTree) (p c q : String) (h : ¬ p = q) :
    lookupFile (updateFile t p c) q = lookupFile t q := by
  induction t with
  | nil => simp [updateFile, lookupFile]
  | cons x t ih =>
    simp only [updateFile, List.map_cons] at ih ⊢
    by_cases hx : x.1 = p
    · have hxq : ¬ x.1 = q := hx ▸ h
      simp [lookupFile, hx, h, hxq, ih]
    · by_cases hq : x.1 = q
      · have hqp : ¬ q = p := fun hc => h hc.symm
        simp [lookupFile, hx, hq, hqp]
      · simp [lookupFile, hx, hq, ih]

theorem lookupFile_mergeOneFile_self (d : FileTree) (p c : String) :
    lookupFile (mergeOneFile d p c) p
      = some (match lookupFile d p with
              | some old => old ++ "\n" ++ c
              | none => c) := by
  rw [mergeOneFile]
  cases h : lookupFile d p with
  | none => simp [lookupFile_append_self d p c h]
  | some old => simp [lookupFile_updateFile_self d p _ (by simp [h])]

theorem lookupFile_mergeOneFile_other (d : FileTree) (p c q : String) (h : ¬ p = q) :
    lookupFile (mergeOneFile d p c) q = lookupFile d q := by
  rw [mergeOneFile]
  cases hd : lookupFile d p with
  | none => exact lookupFile_append_other d p c q h
  | some old => exact lookupFile_updateFile_other d p _ q h

theorem lookupFile_mergeSourceDir_not_mem (s : FileTree) (p : String)
    (h : p ∉ s.map Prod.fst) :
    ∀ d : FileTree, lookupFile (mergeSourceDir d s) p = lookupFile d p := by
  induction s with
  | nil => intro d; rfl
  | cons x rest ih =>
    intro d
    simp only [List.map_cons, List.mem_cons, not_or] at h
    have hstep := lookupFile_mergeOneFile_other d x.1 x.2 p (fun hc => h.1 hc.symm)
    calc lookupFile (mergeSourceDir d (x :: rest)) p
        = lookupFile (mergeSourceDir (mergeOneFile d x.1 x.2) rest) p := rfl
      _ = lookupFile (mergeOneFile d x.1 x.2) p := ih (by simpa using h.2) _
      _ = lookupFile d p := hstep

theorem combineOpt_none (a : Option String) : combineOpt a none = a := by
  cases a <;> rfl

theorem joinFrom_nil (acc : Option String) : joinFrom acc [] = acc := by
  cases acc <;> rfl

theorem lookupFile_mergeSourceDir (s : FileTree) (p : String)
    (h : (s.map Prod.fst).Nodup) :
    ∀ d : FileTree,
      lookupFile (mergeSourceDir d s) p
        = combineOpt (lookupFile d p) (lookupFile s p) := by
  induction s with
  | nil =>
    intro d
    show lookupFile d p = combineOpt (lookupFile d p) none
    rw [combineOpt_none]
  | cons x rest ih =>
    obtain ⟨x1, x2⟩ := x
    intro d
    simp only [List.map_cons, List.nodup_cons] at h
    by_cases hx : x1 = p
    · subst hx
      have hnm : x1 ∉ rest.map Prod.fst := h.1
      have h1 := lookupFile_mergeSourceDir_not_mem rest x1 hnm (mergeOneFile d x1 x2)
      have h2 := lookupFile_mergeOneFile_self d x1 x2
      show lookupFile (mergeSourceDir (mergeOneFile d x1 x2) rest) x1
        = combineOpt (lookupFile d x1) (lookupFile ((x1, x2) :: rest) x1)
      rw [h1, h2, lookupFile, if_pos rfl]
      cases lookupFile d x1 <;> rfl
    · have h1 := ih h.2 (mergeOneFile d x1 x2)
      show lookupFile (mergeSourceDir (mergeOneFile d x1 x2) rest) p
        = combineOpt (lookupFile d p) (lookupFile ((x1, x2) :: rest) p)
      rw [h1, lookupFile_mergeOneFile_other d x1 x2 p hx, lookupFile, if_neg hx]

theorem joinFrom_cons (acc : Option String) (c : String) (r : List String) :
    joinFrom acc (c :: r) = joinFrom (combineOpt acc (some c)) r := by
  cases acc <;> rfl

theorem lookupFile_merge_foldl (p : String) :
    ∀ (sources : List FileTree) (d : FileTree),
      (∀ s ∈ sources, (s.map Prod.fst).Nodup) →
      lookupFile (sources.foldl mergeSourceDir d) p
        = joinFrom (lookupFile d p) (sources.filterMap (fun s => lookupFile s p)) := by
  intro sources
  induction sources with
  | nil =>
    intro d _
    show lookupFile d p = joinFrom (lookupFile d p) []
    rw [joinFrom_nil]
  | cons s rest ih =>
    intro d h
    have hs : (s.map Prod.fst).Nodup := h s (List.mem_cons_self s rest)
    have hrest : ∀ t ∈ rest, (t.map Prod.fst).Nodup :=
      fun t ht => h t (List.mem_cons_of_mem s ht)
    calc lookupFile ((s :: rest).foldl mergeSourceDir d) p
        = lookupFile (rest.foldl mergeSourceDir (mergeSourceDir d s)) p := rfl
      _ = joinFrom (lookupFile (mergeSourceDir d s) p)
            (rest.filterMap (fun t => lookupFile t p)) := ih _ hrest
      _ = joinFrom (combineOpt (lookupFile d p) (lookupFile s p))
            (rest.filterMap (fun t => lookupFile t p)) := by
            rw [lookupFile_mergeSourceDir s p hs d]
      _ = joinFrom (lookupFile d p)
            ((s :: rest).filterMap (fun t => lookupFile t p)) := by
            cases hsp : lookupFile s p with
            | none =>
              have hf : (s :: rest).filterMap (fun t => lookupFile t p)
                  = rest.filterMap (fun t => lookupFile t p) := by
                simp [List.filterMap_cons, hsp]
              rw [combineOpt_none, hf]
            | some c =>
              have hf : (s :: rest).filterMap (fun t => lookupFile t p)
                  = c :: rest.filterMap (fun t => lookupFile t p) := by
                simp [List.filterMap_cons, hsp]
              rw [hf, joinFrom_cons]

/-! ## Helper lemmas: the resolver and the execution loop -/

theorem checkActiveIds_first_unknown (ids : List String) :
    ∀ l : List String, (∃ sid ∈ l, sid ∉ ids) →
      ∃ s, s ∈ l ∧ s ∉ ids ∧ checkActiveIds ids l = .error (.unknownStage s) := by
  intro l
  induction l with
  | nil => rintro ⟨sid, hmem, -⟩; cases hmem
  | cons sid rest ih =>
    rintro ⟨bad, hbad, hnotin⟩
    by_cases hs : sid ∈ ids
    · have hbr : bad ∈ rest := by
        rcases List.mem_cons.mp hbad with h | h
        · exact absurd (h ▸ hs) hnotin
        · exact h
      obtain ⟨s, hsl, hsn, hres⟩ := ih ⟨bad, hbr, hnotin⟩
      exact ⟨s, List.mem_cons_of_mem _ hsl, hsn,
        by simp [checkActiveIds, hs, hres, Except.map]⟩
    · exact ⟨sid, List.mem_cons_self _ _, hs, by simp [checkActiveIds, hs]⟩

theorem checkActiveIds_all_mem (ids : List String) :
    ∀ l : List String, (∀ s ∈ l, s ∈ ids) → checkActiveIds ids l = .ok l := by
  intro l
  induction l with
  | nil => intro _; rfl
  | cons sid rest ih =>
    intro h
    have hs : sid ∈ ids := h sid (List.mem_cons_self _ _)
    have hr := ih (fun s hsr => h s (List.mem_cons_of_mem _ hsr))
    simp [checkActiveIds, hs, hr, Except.map]

theorem checkActiveIds_mem_congr (ids ids' : List String)
    (h : ∀ s, s ∈ ids ↔ s ∈ ids') :
    ∀ l : List String, checkActiveIds ids l = checkActiveIds ids' l := by
  intro l
  induction l with
  | nil => rfl
  | cons sid rest ih =>
    by_cases hs : sid ∈ ids
    · have hs' : sid ∈ ids' := (h sid).mp hs
      simp [checkActiveIds, hs, hs', ih]
    · have hs' : sid ∉ ids' := fun hc => hs ((h sid).mpr hc)
      simp [checkActiveIds, hs, hs']

theorem buildActiveStages_all_ok (inv : Inventory) (meta : String → Option StageMeta) :
    ∀ l : List String, (∀ s ∈ l, s ∈ invStagesDefault inv) →
      (∀ s ∈ l, (meta s).isSome) →
      ∃ active, buildActiveStages inv meta l = .ok active
        ∧ active.map (fun st => st.id) = l := by
  intro l
  induction l with
  | nil => intro _ _; exact ⟨[], rfl, rfl⟩
  | cons sid rest ih =>
    intro hmem hmeta
    have hs : sid ∈ invStagesDefault inv := hmem sid (List.mem_cons_self _ _)
    obtain ⟨st, hst⟩ := Option.isSome_iff_exists.mp (hmeta sid (List.mem_cons_self _ _))
    obtain ⟨act, hact, hmap⟩ := ih (fun s h => hmem s (List.mem_cons_of_mem _ h))
      (fun s h => hmeta s (List.mem_cons_of_mem _ h))
    refine ⟨ActiveStage.mk sid st.cfg_keys inv.env_vars st.env_vars :: act, ?_, ?_⟩
    · simp [buildActiveStages, hs, hst, hact, Except.map]
    · simp [hmap]

theorem buildActiveStages_inv_congr (inv inv' : Inventory) (meta : String → Option StageMeta)
    (hm : ∀ s, s ∈ invStagesDefault inv ↔ s ∈ invStagesDefault inv')
    (he : inv.env_vars = inv'.env_vars) :
    ∀ l : List String, buildActiveStages inv meta l = buildActiveStages inv' meta l := by
  intro l
  induction l with
  | nil => rfl
  | cons sid rest ih =>
    by_cases hs : sid ∈ invStagesDefault inv
    · have hs' : sid ∈ invStagesDefault inv' := (hm sid).mp hs
      cases hst : meta sid with
      | none => simp [buildActiveStages, hs, hs', hst]
      | some st => simp [buildActiveStages, hs, hs', hst, he, ih, Except.map]
    · have hs' : sid ∉ invStagesDefault inv' := fun hc => hs ((hm sid).mpr hc)
      simp [buildActiveStages, hs, hs']

theorem execStages_invoked_mem (exitOk : String → Bool) :
    ∀ (stages : List ActiveStage) (x : String),
      x ∈ (execStages exitOk stages).1 → x ∈ stages.map (fun st => st.id) := by
  intro stages
  induction stages with
  | nil => intro x hx; cases hx
  | cons st rest ih =>
    intro x hx
    by_cases hs : exitOk st.id
    · simp only [execStages, if_pos hs] at hx
      rcases List.mem_cons.mp hx with h | h
      · simp [h]
      · simp [List.mem_cons_of_mem, ih x h]
    · simp only [execStages, if_neg hs] at hx
      simp [List.mem_singleton.mp hx]

/-! ## Claim theorems and their witnesses -/

/-- Claim C3: merging an ordered list of source directories concatenates,
for each relative path, the contents of the sources containing it in
priority order, each later contribution separated from the accumulated
content by a single newline; in particular for sources `[A, B, C]` with
path `p` present in `A` and `C` but not `B`, the merged content is
`content(A/p) ++ "\n" ++ content(C/p)`. -/
theorem merge_concatenates_in_priority_order :
    (∀ (sources : List FileTree) (p : String),
        (∀ s ∈ sources, (s.map Prod.fst).Nodup) →
        lookupFile (merge_config_dirs sources) p
          = joinFrom none (sources.filterMap (fun s => lookupFile s p)))
    ∧ (∀ (A B C : FileTree) (p a c : String),
        (A.map Prod.fst).Nodup → (B.map Prod.fst).Nodup → (C.map Prod.fst).Nodup →
        lookupFile A p = some a → lookupFile B p = none → lookupFile C p = some c →
        lookupFile (merge_config_dirs [A, B, C]) p = some (a ++ "\n" ++ c)) := by
  constructor
  · intro sources p h
    exact lookupFile_merge_foldl p sources [] h
  · intro A B C p a c hA hB hC ha hb hc
    have hnd : ∀ s ∈ [A, B, C], (s.map Prod.fst).Nodup := by
      intro s hs
      simp only [List.mem_cons, List.not_mem_nil, or_false] at hs
      rcases hs with rfl | rfl | rfl <;> assumption
    have h := lookupFile_merge_foldl p [A, B, C] [] hnd
    have hf : List.filterMap (fun s => lookupFile s p) [A, B, C] = [a, c] := by
      simp [List.filterMap_cons, ha, hb, hc]
    rw [hf] at h
    exact h

/-- Witness for claim C3 at concrete one-file directories. -/
theorem merge_concatenates_in_priority_order_witness :
    lookupFile (merge_config_dirs [[("p", "a1")], [("q", "b1")], [("p", "c1")]]) "p"
      = some ("a1" ++ "\n" ++ "c1") :=
  merge_concatenates_in_priority_order.2 [("p", "a1")] [("q", "b1")] [("p", "c1")]
    "p" "a1" "c1" (by decide) (by decide) (by decide) rfl rfl rfl

/-- Claim C4: if stage `i` is the first stage whose entry point fails
(exits non-zero or cannot be launched), exactly the stages up to and
including `i` are invoked — no later stage is ever started — and the
execution loop reports the failure as stage `i`'s. -/
theorem fail_fast_aborts_remaining_stages (exitOk : String → Bool)
    (stages : List ActiveStage) :
    ∀ (i : Nat) (hi : i < stages.length),
      (∀ j (hj : j < i), exitOk ((stages.get ⟨j, Nat.lt_trans hj hi⟩).id) = true) →
      exitOk ((stages.get ⟨i, hi⟩).id) = false →
      (execStages exitOk stages).1 = (stages.take (i + 1)).map (fun st => st.id)
      ∧ (execStages exitOk stages).2 = some ((stages.get ⟨i, hi⟩).id) := by
  induction stages with
  | nil =>
    intro i hi
    exact absurd hi (by simp)
  | cons st rest ih =>
    intro i hi hpre hfail
    cases i with
    | zero =>
      have h0 : exitOk st.id = false := hfail
      simp [execStages, h0]
    | succ i2 =>
      have h0 : exitOk st.id = true := hpre 0 (Nat.succ_pos i2)
      have hi2 : i2 < rest.length := Nat.lt_of_succ_lt_succ hi
      have hrest := ih i2 hi2 (fun j hj => hpre (j + 1) (Nat.succ_lt_succ hj)) hfail
      simp [execStages, h0, hrest.1, hrest.2]

/-- Witness for claim C4: with stages `[s1, s2, s3]` and `s2` failing,
only `s1` and `s2` run and the failure is attributed to `s2`. -/
theorem fail_fast_aborts_remaining_stages_witness :
    (execStages exitScenario stagesScenario).1 = ["s1", "s2"]
    ∧ (execStages exitScenario stagesScenario).2 = some "s2" := by
  have h := fail_fast_aborts_remaining_stages exitScenario stagesScenario 1 (by decide)
    (fun j hj => by
      have hj0 : j = 0 := Nat.lt_one_iff.mp hj
      subst hj0
      rfl)
    (by rfl)
  exact ⟨h.1.trans (by rfl), h.2.trans (by rfl)⟩

/-- Claim C5: when some workflow stage id is not a member of the
inventory's stage set, the run terminates with the unknown-stage
resolution error, and no transient configuration directory is created
(and no stage invoked). -/
theorem unknown_stage_fails_before_dirs (w : World) (wf : Workflow)
    (ids l : List String)
    (hv : (validate_uuid7 w.runIdToken).isOk = true)
    (hpe : ¬ (w.envType = "prod" ∧ w.ephemeral = true))
    (hinv : w.inventoryFileExists = true)
    (hwn : ¬ w.workflowName = "")
    (hwf : chosenWorkflowDoc w = some wf)
    (hids : w.inventory.stagesField = some (.list ids))
    (hl : wf.stagesField = some l)
    (hbad : ∃ sid ∈ l, sid ∉ ids) :
    ∃ s, s ∈ l ∧ s ∉ ids
      ∧ run w = ⟨.resolveError (.unknownStage s), [], [], []⟩ := by
  obtain ⟨s, hsl, hsn, hres⟩ := checkActiveIds_first_unknown ids l hbad
  have hg : get_stages_from_workflow w.inventory wf w.stageMeta
      = .error (.unknownStage s) := by
    simp [get_stages_from_workflow, inventoryStageIds, workflowStageIds, hids, hl, hres]
  exact ⟨s, hsl, hsn, by simp [run, hv, hpe, hinv, hwn, hwf, hg]⟩

/-- Witness for claim C5: workflow stage `b` against an inventory that
only declares `a`. -/
theorem unknown_stage_fails_before_dirs_witness :
    ∃ s, s ∈ ["b"] ∧ s ∉ ["a"]
      ∧ run wUnknownStage = ⟨.resolveError (.unknownStage s), [], [], []⟩ :=
  unknown_stage_fails_before_dirs wUnknownStage ⟨some ["b"]⟩ ["a"] ["b"]
    (by decide) (by decide) rfl (by decide) rfl rfl rfl ⟨"b", by decide, by decide⟩

/-- Claim C6: for a valid inventory/workflow pair the active-stage list
is exactly the workflow's declared stage sequence in declaration order,
only stages named by the workflow can ever be invoked, and the
inventory's own ordering of its stage set has no effect (any
membership-equivalent `stages` list resolves identically). -/
theorem active_stages_follow_workflow_order (inv : Inventory) (wf : Workflow)
    (meta : String → Option StageMeta) (ids l : List String)
    (hids : inv.stagesField = some (.list ids))
    (hl : wf.stagesField = some l)
    (hmem : ∀ s ∈ l, s ∈ ids)
    (hmeta : ∀ s ∈ l, (meta s).isSome) :
    (∃ active, get_stages_from_workflow inv wf meta = .ok (l, active)
      ∧ active.map (fun st => st.id) = l
      ∧ ∀ (exitOk : String → Bool) (x : String),
          x ∈ (execStages exitOk active).1 → x ∈ l)
    ∧ ∀ ids2, (∀ s, s ∈ ids2 ↔ s ∈ ids) →
        get_stages_from_workflow { inv with stagesField := some (.list ids2) } wf meta
          = get_stages_from_workflow inv wf meta := by
  have hdef : invStagesDefault inv = ids := by simp [invStagesDefault, hids]
  constructor
  · obtain ⟨active, hact, hmap⟩ :=
      buildActiveStages_all_ok inv meta l (by rw [hdef]; exact hmem) hmeta
    refine ⟨active, ?_, hmap, ?_⟩
    · simp [get_stages_from_workflow, inventoryStageIds, workflowStageIds, hids, hl,
        checkActiveIds_all_mem ids l hmem, hact]
    · intro exitOk x hx
      exact hmap ▸ execStages_invoked_mem exitOk active x hx
  · intro ids2 hiff
    have hdef2 : invStagesDefault { inv with stagesField := some (.list ids2) } = ids2 := by
      simp [invStagesDefault]
    have hc := checkActiveIds_mem_congr ids2 ids hiff
    have hb := buildActiveStages_inv_congr
      { inv with stagesField := some (.list ids2) } inv meta
      (fun s => by rw [hdef, hdef2]; exact hiff s) rfl
    simp [get_stages_from_workflow, inventoryStageIds, workflowStageIds, hids, hl, hc, hb]

/-- Witness for claim C6: inventory `[build, test, deploy]`, workflow
`[test, deploy]` — active order is exactly `[test, deploy]` and `build`
is never invoked. -/
theorem active_stages_follow_workflow_order_witness :
    (∃ active, get_stages_from_workflow invScenario wfScenario metaScenario
        = .ok (["test", "deploy"], active)
      ∧ active.map (fun st => st.id) = ["test", "deploy"]
      ∧ ∀ (exitOk : String → Bool) (x : String),
          x ∈ (execStages exitOk active).1 → x ∈ ["test", "deploy"])
    ∧ ∀ ids2, (∀ s, s ∈ ids2 ↔ s ∈ ["build", "test", "deploy"]) →
        get_stages_from_workflow { invScenario with stagesField := some (.list ids2) }
            wfScenario metaScenario
          = get_stages_from_workflow invScenario wfScenario metaScenario :=
  active_stages_follow_workflow_order invScenario wfScenario metaScenario
    ["build", "test", "deploy"] ["test", "deploy"] rfl rfl (by decide) (by decide)

/-- Claim C7: the run-id validator accepts a token exactly when it
parses as a structurally valid UUID whose version discriminator is 7; a
structurally valid token of any other version is rejected with a message
naming the required version (7) and the actual one; and a rejected token
means the run performs no filesystem mutation and invokes no stage. -/
theorem run_id_validator_v7_only (w : World) (v : String) :
    ((validate_uuid7 v).isOk = true
      ↔ ∃ n, uuidParse v = some n ∧ uuidVersion n = some 7)
    ∧ (∀ n k, uuidParse v = some n → uuidVersion n = some k → ¬ k = 7 →
        validate_uuid7 v
          = .error ("UUID must be version 7, got version " ++ toString k ++ ": " ++ v))
    ∧ ((validate_uuid7 w.runIdToken).isOk = false →
        run w = ⟨.invalidRunId, [], [], []⟩) := by
  refine ⟨?_, ?_, ?_⟩
  · cases hp : uuidParse v with
    | none => simp [validate_uuid7, hp, Except.isOk, Except.toBool]
    | some n =>
      cases hver : uuidVersion n with
      | none => simp [validate_uuid7, hp, hver, Except.isOk, Except.toBool]
      | some ver =>
        by_cases h7 : ver = 7
        · subst h7
          simp [validate_uuid7, hp, hver, Except.isOk, Except.toBool]
        · simp [validate_uuid7, hp, hver, h7, Except.isOk, Except.toBool]
  · intro n k hp hver hk
    simp [validate_uuid7, hp, hver, hk]
  · intro h
    simp [run, h]

/-- Witness for claim C7: a valid UUIDv7 is accepted, a UUIDv4 is
rejected naming versions 7 and 4, and a malformed token aborts the run
with no effects. -/
theorem run_id_validator_v7_only_witness :
    (validate_uuid7 "017f22e2-79b0-7cc3-98c4-dc0c0c07398f").isOk = true
    ∧ validate_uuid7 "017f22e2-79b0-4cc3-98c4-dc0c0c07398f"
        = .error ("UUID must be version 7, got version " ++ toString 4
            ++ ": " ++ "017f22e2-79b0-4cc3-98c4-dc0c0c07398f")
    ∧ run wBadRunId = ⟨.invalidRunId, [], [], []⟩ := by
  refine ⟨?_, ?_, ?_⟩
  · exact (run_id_validator_v7_only wBadRunId "017f22e2-79b0-7cc3-98c4-dc0c0c07398f").1.mpr
      ⟨0x017f22e279b07cc398c4dc0c0c07398f, by decide, by decide⟩
  · exact (run_id_validator_v7_only wBadRunId "017f22e2-79b0-4cc3-98c4-dc0c0c07398f").2.1
      0x017f22e279b04cc398c4dc0c0c07398f 4 (by decide) (by decide) (by decide)
  · exact (run_id_validator_v7_only wBadRunId "x").2.2 (by decide)

/-- Claim C8: workflow lookup prefers the environment-type-specific
file; the shared base file is used exactly when the specific one is
absent; and when neither exists, the run exits with the
workflow-not-found outcome, before any stage resolution, directory
creation, or stage execution. -/
theorem workflow_lookup_prefers_env_specific (w : World)
    (hv : (validate_uuid7 w.runIdToken).isOk = true)
    (hpe : ¬ (w.envType = "prod" ∧ w.ephemeral = true))
    (hinv : w.inventoryFileExists = true)
    (hwn : ¬ w.workflowName = "") :
    (workflowChoice w = .envSpecific ↔ w.envWorkflowExists = true)
    ∧ (workflowChoice w = .base
        ↔ (w.envWorkflowExists = false ∧ w.baseWorkflowExists = true))
    ∧ (workflowChoice w = .noneFound
        ↔ (w.envWorkflowExists = false ∧ w.baseWorkflowExists = false))
    ∧ (w.envWorkflowExists = true → chosenWorkflowDoc w = some w.envWorkflow)
    ∧ (w.envWorkflowExists = false → w.baseWorkflowExists = true →
        chosenWorkflowDoc w = some w.baseWorkflow)
    ∧ (w.envWorkflowExists = false → w.baseWorkflowExists = false →
        run w = ⟨.workflowNotFound, [], [], []⟩) := by
  cases he : w.envWorkflowExists <;> cases hb : w.baseWorkflowExists <;>
    refine ⟨?_, ?_, ?_, ?_, ?_, ?_⟩ <;>
    simp [workflowChoice, chosenWorkflowDoc, he, hb, run, hv, hpe, hinv, hwn]

/-- Witness for claim C8: with neither workflow file present the run
aborts with no effects. -/
theorem workflow_lookup_prefers_env_specific_witness :
    (workflowChoice wNoWorkflowFile = .noneFound
      ↔ (wNoWorkflowFile.envWorkflowExists = false
          ∧ wNoWorkflowFile.baseWorkflowExists = false))
    ∧ run wNoWorkflowFile = ⟨.workflowNotFound, [], [], []⟩ := by
  have h := workflow_lookup_prefers_env_specific wNoWorkflowFile
    (by decide) (by decide) rfl (by decide)
  exact ⟨h.2.2.1, h.2.2.2.2.2 rfl rfl⟩

/-- Claim C9: an invocation with `--env-type prod --ephemeral true` is
rejected with the fatal configuration error before any other work: no
directory is created or removed and no stage is invoked. -/
theorem prod_ephemeral_rejected_immediately (w : World)
    (hv : (validate_uuid7 w.runIdToken).isOk = true)
    (hp : w.envType = "prod") (he : w.ephemeral = true) :
    run w = ⟨.configError, [], [], []⟩ := by
  simp [run, hv, hp, he]

/-- Witness for claim C9 at a concrete prod/ephemeral invocation. -/
theorem prod_ephemeral_rejected_immediately_witness :
    run wProdEphemeral = ⟨.configError, [], [], []⟩ :=
  prod_ephemeral_rejected_immediately wProdEphemeral (by decide) rfl rfl

/-- Claim C10: the environment handed to a stage entry point is exactly
the inherited process environment overridden at the five fixed keys
(`main_tag`, `env_type`, `run_id`, JSON-serialized `cfg_keys`,
`origin_cfg_base_dir_path`); the inventory-level and stage-level env var
defaults carried in the stage descriptor are never injected — replacing
them leaves the stage environment unchanged. -/
theorem stage_env_fixed_keys_only (w : World) (st : ActiveStage) :
    (∀ k, k ∉ stageEnvKeys → stageInvocationEnv w st k = w.baseEnv k)
    ∧ stageInvocationEnv w st "main_tag" = some w.mainTag
    ∧ stageInvocationEnv w st "env_type" = some w.envType
    ∧ stageInvocationEnv w st "run_id" = some w.runIdToken
    ∧ stageInvocationEnv w st "cfg_keys" = some (jsonList st.cfg_keys)
    ∧ stageInvocationEnv w st "origin_cfg_base_dir_path" = some "effective_cfg"
    ∧ ∀ einv est,
        stageInvocationEnv w
            { st with env_vars_inventory := einv, env_vars_stage := est }
          = stageInvocationEnv w st := by
  refine ⟨?_, rfl, rfl, rfl, rfl, rfl, fun _ _ => rfl⟩
  intro k hk
  simp only [stageEnvKeys, List.mem_cons, List.not_mem_nil, or_false, not_or] at hk
  obtain ⟨h1, h2, h3, h4, h5⟩ := hk
  simp [stageInvocationEnv, buildStageEnv, h1, h2, h3, h4, h5]

/-- Witness for claim C10: an untouched inherited key passes through
unchanged and `cfg_keys` carries the serialized key list. -/
theorem stage_env_fixed_keys_only_witness :
    ("HOME" ∉ stageEnvKeys)
    ∧ stageInvocationEnv wRunOk stScenario "HOME" = wRunOk.baseEnv "HOME"
    ∧ stageInvocationEnv wRunOk stScenario "cfg_keys"
        = some (jsonList stScenario.cfg_keys) :=
  ⟨by decide,
   (stage_env_fixed_keys_only wRunOk stScenario).1 "HOME" (by decide),
   (stage_env_fixed_keys_only wRunOk stScenario).2.2.2.2.1⟩

/-- Claim C1 is refuted by the code: on a fully successful run with
merging enabled, the scratch directory created by `tempfile.mkdtemp()`
is still on disk when the process returns (nothing ever removes it), and
when the `cp -aL` symlink-resolution step fails both transient
directories survive, because the failure is raised before the
`try/finally` that removes `effective_cfg`. -/
theorem transient_dirs_survive_run :
    ((run wRunOk).outcome = .success
      ∧ remainingDirs (run wRunOk) = ["merge_scratch"])
    ∧ ((run wCpFail).outcome = .symlinkResolveFailed
      ∧ remainingDirs (run wCpFail) = ["merge_scratch", "effective_cfg"]) := by
  refine ⟨⟨?_, ?_⟩, ?_, ?_⟩ <;> rfl

/-- Claim C2 counterexample: an inventory document with no `stages`
field resolves successfully — `inventory.get("stages", [])` defaults to
the empty list, which passes the `isinstance(..., list)` check — instead
of failing with the invalid-inventory error. -/
theorem missing_stages_field_not_rejected :
    get_stages_from_workflow ⟨none, []⟩ ⟨some []⟩ (fun _ => none)
      = .ok ([], []) := rfl

/-- Claim C2 as amended: a `stages` field that is present but not a
sequence fails with the invalid-inventory error, while an absent
`stages` field is treated as the empty stage list — resolution behaves
exactly as if `stages: []` had been written. -/
theorem invalid_stages_field_rejected :
    (∀ (inv : Inventory) (wf : Workflow) (meta : String → Option StageMeta) (s : String),
        inv.stagesField = some (.scalar s) →
        get_stages_from_workflow inv wf meta = .error .invalidInventory)
    ∧ ∀ (env : List (String × String)) (wf : Workflow) (meta : String → Option StageMeta),
        get_stages_from_workflow ⟨none, env⟩ wf meta
          = get_stages_from_workflow ⟨some (.list []), env⟩ wf meta := by
  constructor
  · intro inv wf meta s h
    simp [get_stages_from_workflow, inventoryStageIds, h]
  · intro env wf meta
    have hb := buildActiveStages_inv_congr ⟨none, env⟩ ⟨some (.list []), env⟩ meta
      (fun _ => Iff.rfl) rfl
    simp [get_stages_from_workflow, inventoryStageIds, hb]

/-- Witness for the amended claim C2 at concrete documents. -/
theorem invalid_stages_field_rejected_witness :
    get_stages_from_workflow ⟨some (.scalar "notalist"), []⟩ ⟨some []⟩ (fun _ => none)
      = .error .invalidInventory
    ∧ get_stages_from_workflow ⟨none, [("K", "V")]⟩ ⟨some ["s1"]⟩ (fun _ => none)
        = get_stages_from_workflow ⟨some (.list []), [("K", "V")]⟩ ⟨some ["s1"]⟩
            (fun _ => none) :=
  ⟨invalid_stages_field_rejected.1 ⟨some (.scalar "notalist"), []⟩ ⟨some []⟩
      (fun _ => none) "notalist" rfl,
   invalid_stages_field_rejected.2 [("K", "V")] ⟨some ["s1"]⟩ (fun _ => none)⟩

end AtlasCtl
